import Mathlib

/-!
Verification of the terminus-cli request lifecycle core: message-history
repair, the tool-confirmation gate, the SIGINT bridge, request resolution,
error handling and the run_command allow-list, shallowly embedded from
src/terminus (agent.py, repl.py, commands.py, session.py, utils/error.py,
utils/command.py, tools/run_command.py).
-/

namespace Terminus

/-- Python set.add on a membership-based model of a set of strings. -/
def addToSet (x : String) (s : List String) : List String :=
  if x ∈ s then s else x :: s

/-- Python set.update: fold set.add over a list of new elements. -/
def updateSet (s : List String) (xs : List String) : List String :=
  xs.foldl (fun acc c => addToSet c acc) s

/-- Message parts, after pydantic-ai message parts as used by agent.py:
tool-call parts carry a tool name and call id, tool-return parts carry the
referenced tool name, call id and content. -/
inductive Part where
  | userPrompt (content : String)
  | text (content : String)
  | toolCall (toolName : String) (toolCallId : String) (args : String)
  | toolReturn (toolName : String) (toolCallId : String) (content : String)
  | retryPrompt (content : String)
deriving DecidableEq, Repr

/-- The part_kind discriminator string of a part. -/
def Part.partKind : Part → String
  | .userPrompt _ => "user-prompt"
  | .text _ => "text"
  | .toolCall _ _ _ => "tool-call"
  | .toolReturn _ _ _ => "tool-return"
  | .retryPrompt _ => "retry-prompt"

/-- A conversation entry: ModelRequest has kind "request", ModelResponse has
kind "response"; both carry a list of parts. -/
structure Message where
  kind : String
  parts : List Part
deriving DecidableEq, Repr

/-- The rearmost tool-call part of a part list: agent.py scans
reversed(last_message.parts) and breaks at the first part whose part_kind is
"tool-call". -/
def lastToolCallPart (parts : List Part) : Option Part :=
  parts.reverse.find? (fun p => p.partKind = "tool-call")

/-- agent.py _patch_history_on_error: if the history is non-empty, its last
message has kind "response", and that message has a rearmost tool-call part,
append one ModelRequest holding a single ToolReturnPart with that call's tool
name and id and content equal to the error message; otherwise no-op. -/
def patch_history_on_error (msgs : List Message) (errorMessage : String) : List Message :=
  match msgs.getLast? with
  | none => msgs
  | some lastMessage =>
    if lastMessage.kind = "response" then
      match lastToolCallPart lastMessage.parts with
      | some (Part.toolCall name cid _) =>
          msgs ++ [Message.mk "request" [Part.toolReturn name cid errorMessage]]
      | _ => msgs
    else msgs

/-- Handle to an in-flight asyncio task: its identity and whether done()
already returns true. -/
structure TaskHandle where
  id : Nat
  done : Bool
deriving DecidableEq, Repr

/-- The mutable Session record of session.py, restricted to the fields the
lifecycle core reads or writes. The spinner is modelled as the optional
spinner object together with whether it is currently running. -/
structure SessionS where
  messages : List Message
  currentTask : Option TaskHandle
  sigintReceived : Bool
  confirmationEnabled : Bool
  disabledConfirmations : List String
  allowedCommands : List String
  spinner : Option Bool
deriving DecidableEq, Repr

/-- The Session dataclass defaults: empty history, no task, no interrupt seen,
confirmations enabled, both string sets empty, no spinner object yet. -/
def sessionDefault : SessionS :=
  { messages := []
    currentTask := none
    sigintReceived := false
    confirmationEnabled := true
    disabledConfirmations := []
    allowedCommands := []
    spinner := none }

/-- spinner.stop on the optional spinner: a present spinner becomes
not-running, the absence of a spinner is untouched. -/
def stopSpinnerObj : Option Bool → Option Bool
  | none => none
  | some _ => some false

/-- spinner.start on the optional spinner. -/
def startSpinnerObj : Option Bool → Option Bool
  | none => none
  | some _ => some true

/-- Python str whitespace for strip(): space, tab, newline, carriage return,
vertical tab and form feed. -/
def isPySpace (c : Char) : Bool :=
  c = ' ' || c = '\t' || c = '\n' || c = '\r' || c = Char.ofNat 11 || c = Char.ofNat 12

/-- Python str.strip() with no argument. -/
def pyStrip (s : String) : String :=
  String.mk (((s.toList.dropWhile isPySpace).reverse.dropWhile isPySpace).reverse)

/-- Python str.lower() on the ASCII range. -/
def pyLower (s : String) : String :=
  String.mk (s.toList.map Char.toLower)

/-- agent.py confirm: the bare tool name derived from the title, splitting on
the first ":" and stripping only in that case. -/
def deriveToolName (title : String) : String :=
  if title.toList.contains ':' then
    pyStrip (String.mk (title.toList.takeWhile (fun c => c ≠ ':')))
  else title

/-- One read of the confirmation prompt normalises the line with
lower() then strip(). -/
def choiceOf (line : String) : String := pyStrip (pyLower line)

/-- Result of one run of the confirmation gate. result none means the input
lines were exhausted while the prompt was still looping (the real prompt would
keep blocking). promptsRead counts the blocking keyboard reads and
renderedPanel records whether the preview panel was printed. -/
structure ConfirmRun where
  result : Option Bool
  session : SessionS
  promptsRead : Nat
  renderedPanel : Bool
deriving DecidableEq, Repr

/-- The while-True prompt loop of agent.py confirm, consuming typed lines:
empty, y or yes approve and restart a present spinner; a or always add the
tool name to disabled_confirmations, approve and restart a present spinner;
n or no deny without restarting the spinner; anything else re-prompts. -/
def confirmLoop (toolName : String) (s : SessionS) :
    List String → Option Bool × SessionS × Nat
  | [] => (none, s, 0)
  | line :: rest =>
    let c := choiceOf line
    if c = "" ∨ c = "y" ∨ c = "yes" then
      (some true, { s with spinner := startSpinnerObj s.spinner }, 1)
    else if c = "a" ∨ c = "always" then
      let s1 := { s with
        disabledConfirmations := addToSet toolName s.disabledConfirmations }
      (some true, { s1 with spinner := startSpinnerObj s1.spinner }, 1)
    else if c = "n" ∨ c = "no" then
      (some false, s, 1)
    else
      let r := confirmLoop toolName s rest
      (r.1, r.2.1, r.2.2 + 1)

/-- agent.py confirm (the confirm_action callback): short-circuits to true
with no output and no read when confirmations are disabled or the derived tool
name is already exempt; otherwise stops a present spinner, renders the preview
panel and runs the prompt loop. -/
def confirm (s : SessionS) (title : String) (lines : List String) : ConfirmRun :=
  let toolName := deriveToolName title
  if !s.confirmationEnabled || s.disabledConfirmations.contains toolName then
    ⟨some true, s, 0, false⟩
  else
    let s1 := { s with spinner := stopSpinnerObj s.spinner }
    let r := confirmLoop toolName s1 lines
    ⟨r.1, r.2.1, r.2.2, true⟩

/-- commands.py handle_yolo: toggle confirmation_enabled; when the toggle
lands on enabled, clear disabled_confirmations. -/
def handle_yolo (s : SessionS) : SessionS :=
  let s1 := { s with confirmationEnabled := !s.confirmationEnabled }
  if s1.confirmationEnabled then { s1 with disabledConfirmations := [] } else s1

/-- The session operations that can touch disabled_confirmations: the /yolo
command and a run of the confirmation gate. -/
inductive SessionOp where
  | yolo
  | confirmCall (title : String) (lines : List String)

/-- Apply one session operation to the session. -/
def applySessionOp : SessionOp → SessionS → SessionS
  | .yolo, s => handle_yolo s
  | .confirmCall title lines, s => (confirm s title lines).session

/-- A prompt line the confirmation loop accepts (after lower/strip). -/
def isRecognized (c : String) : Bool :=
  c = "" || c = "y" || c = "yes" || c = "a" || c = "always" || c = "n" || c = "no"

/-- Effect of the SIGINT handler besides its session mutation: either a
cancellation of the current task handed to the event loop with
call_soon_threadsafe, or a KeyboardInterrupt raised out of the handler. -/
inductive SignalEffect where
  | cancelEnqueued (taskId : Nat)
  | raisedKeyboardInterrupt
deriving DecidableEq, Repr

/-- repl.py _setup_signal_handler, the body of the installed handler: set
sigint_received; if current_task is present and not done, enqueue a
thread-safe cancellation of it; otherwise raise KeyboardInterrupt. -/
def signal_handler (s : SessionS) : SessionS × SignalEffect :=
  let s1 := { s with sigintReceived := true }
  match s1.currentTask with
  | some t =>
    if !t.done then (s1, SignalEffect.cancelEnqueued t.id)
    else (s1, SignalEffect.raisedKeyboardInterrupt)
  | none => (s1, SignalEffect.raisedKeyboardInterrupt)

/-- What the read of one line of input at the main prompt can produce:
a text line, end of input (EOFError), or a KeyboardInterrupt surfacing at
the prompt. -/
inductive PromptRead where
  | line (text : String)
  | endOfInput
  | interrupted
deriving DecidableEq, Repr

/-- Python str.split() with no separator: split on whitespace runs,
dropping empty pieces. -/
def splitWsGo : List Char → List Char → List String
  | [], cur => if cur.isEmpty then [] else [String.mk cur.reverse]
  | c :: rest, cur =>
    if isPySpace c then
      if cur.isEmpty then splitWsGo rest []
      else String.mk cur.reverse :: splitWsGo rest []
    else splitWsGo rest (c :: cur)

/-- Python str.split() with no arguments. -/
def pySplitWs (s : String) : List String := splitWsGo s.toList []

/-- repl.py _should_exit: the lowered input is exit or quit. -/
def should_exit (userInput : String) : Bool :=
  pyLower userInput = "exit" || pyLower userInput = "quit"

/-- commands.py handle_command routing: the input is a slash command whose
first whitespace-separated token is one of the registered handlers (slash
inputs with an unknown command fall through and are treated as requests). -/
def handled_command (debugEnabled : Bool) (t : String) : Bool :=
  if t.toList.take 1 ≠ ['/'] then false
  else
    match pySplitWs t with
    | [] => false
    | c :: _ =>
      c = "/dump" || c = "/yolo" || c = "/clear" || c = "/help" ||
        (debugEnabled && c = "/test")

/-- The route the repl.run loop body takes for one read of input. -/
inductive ReplAction where
  | breakLoop
  | continueLoop
  | commandHandler (text : String)
  | dispatchRequest (text : String)
deriving DecidableEq, Repr

/-- repl.py run, one loop iteration up to dispatch: EOFError and
KeyboardInterrupt at the prompt break the loop; empty input continues; exit
and quit break; a recognised slash command goes to its handler; anything else
becomes a request. -/
def replReadStep (debugEnabled : Bool) : PromptRead → ReplAction
  | .endOfInput => .breakLoop
  | .interrupted => .breakLoop
  | .line t =>
    if t = "" then .continueLoop
    else if should_exit t then .breakLoop
    else if handled_command debugEnabled t then .commandHandler t
    else .dispatchRequest t

/-- The shape of the body attribute of a ModelHTTPError as probed by
utils/error.py _get_api_message: a dict with an error sub-dict (whose message
key may be absent), a dict with a top-level message key, or anything else. -/
inductive ApiBody where
  | errorDict (message : Option String)
  | messageField (message : String)
  | otherBody
deriving DecidableEq, Repr

/-- The error taxonomy the lifecycle code distinguishes, each carrying the
Python str(error) rendering. CancelledError and KeyboardInterrupt derive only
from BaseException; ModelRetry and ModelHTTPError come from pydantic-ai;
generic covers every other Exception with its type name, module name and
optional message attribute. -/
inductive PyError where
  | cancelledError (msg : String)
  | keyboardInterrupt (msg : String)
  | modelRetry (msg : String)
  | modelHTTPError (modelName : String) (body : Option ApiBody) (msg : String)
  | generic (typeName : String) (moduleName : String)
      (messageAttr : Option String) (msg : String)
deriving DecidableEq, Repr

/-- Python str(error). -/
def PyError.str : PyError → String
  | .cancelledError m => m
  | .keyboardInterrupt m => m
  | .modelRetry m => m
  | .modelHTTPError _ _ m => m
  | .generic _ _ _ m => m

/-- Python type(error).__name__. -/
def PyError.typeName : PyError → String
  | .cancelledError _ => "CancelledError"
  | .keyboardInterrupt _ => "KeyboardInterrupt"
  | .modelRetry _ => "ModelRetry"
  | .modelHTTPError _ _ _ => "ModelHTTPError"
  | .generic t _ _ _ => t

/-- Python type(error).__module__ (only consulted for provider errors). -/
def PyError.moduleName : PyError → String
  | .generic _ m _ _ => m
  | _ => ""

def PyError.isCancelled : PyError → Bool
  | .cancelledError _ => true
  | _ => false

def PyError.isKeyboardInt : PyError → Bool
  | .keyboardInterrupt _ => true
  | _ => false

def PyError.isModelRetry : PyError → Bool
  | .modelRetry _ => true
  | _ => false

def PyError.isModelHTTP : PyError → Bool
  | .modelHTTPError _ _ _ => true
  | _ => false

/-- Whether the error is an instance of Exception: since Python 3.8
CancelledError and KeyboardInterrupt derive only from BaseException, so the
except Exception clause of process_request does not catch them. -/
def PyError.isExceptionClass : PyError → Bool
  | .cancelledError _ => false
  | .keyboardInterrupt _ => false
  | _ => true

/-- Python substring membership pat in s, on character lists. -/
def listHasSub (pat : List Char) : List Char → Bool
  | [] => pat.isEmpty
  | c :: rest => pat.isPrefixOf (c :: rest) || listHasSub pat rest

/-- Python pat in s for strings. -/
def pyInStr (pat s : String) : Bool := listHasSub pat.toList s.toList

/-- The single-quote character, code point 39. -/
def squote : Char := Char.ofNat 39

/-- A quote character of the extraction regex: double or single quote. -/
def isQuote (c : Char) : Bool := c = '"' || c = squote

/-- Python regex whitespace class for the message-extraction pattern. -/
def isReSpace (c : Char) : Bool :=
  c = ' ' || c = '\t' || c = '\n' || c = '\r' || c = Char.ofNat 11 || c = Char.ofNat 12

/-- Consume a lowercase literal, comparing input characters lowercased
(the pattern is compiled with IGNORECASE). -/
def matchLowerLit : List Char → List Char → Option (List Char)
  | [], cs => some cs
  | _ :: _, [] => none
  | p :: ps, c :: cs => if c.toLower = p then matchLowerLit ps cs else none

/-- One anchored attempt of the utils/error.py extraction regex: an optional
quote, the word message ignoring case, an optional quote, a colon, optional
whitespace, a quote, a non-empty run free of quotes and newlines (the
capture), and a closing quote. -/
def reMessageMatchAt (cs : List Char) : Option String :=
  let cs1 := match cs with
    | c :: rest => if isQuote c then rest else c :: rest
    | [] => ([] : List Char)
  match matchLowerLit "message".toList cs1 with
  | none => none
  | some cs2 =>
    let cs3 := match cs2 with
      | c :: rest => if isQuote c then rest else c :: rest
      | [] => ([] : List Char)
    match cs3 with
    | ':' :: cs4 =>
      let cs5 := cs4.dropWhile isReSpace
      match cs5 with
      | q :: cs6 =>
        if isQuote q then
          let content := cs6.takeWhile (fun c => !(isQuote c || c = '\n'))
          if content.isEmpty then none
          else
            match cs6.drop content.length with
            | c :: _ => if isQuote c then some (String.mk content) else none
            | [] => none
        else none
      | [] => none
    | _ => none

/-- Leftmost match of the extraction regex over all start positions. -/
def reSearchGo : List Char → Option String
  | [] => none
  | c :: rest =>
    match reMessageMatchAt (c :: rest) with
    | some m => some m
    | none => reSearchGo rest

/-- re.search of the message-extraction pattern over the whole string. -/
def reMessageSearch (s : String) : Option String := reSearchGo s.toList

/-- utils/error.py _get_api_message on the modelled body shapes: an error
sub-dict yields its message key or falls back to str(error); a top-level
message key yields it; anything else yields str(error). -/
def get_api_message (body : Option ApiBody) (msg : String) : String :=
  match body with
  | some (ApiBody.errorDict m) => m.getD msg
  | some (ApiBody.messageField m) => m
  | _ => msg

/-- utils/error.py _extract_provider_message for errors modelled with an
optional message attribute (the body and details dict fallbacks concern
attribute shapes outside this model and yield the empty string here, as they
do for errors carrying none of those attributes). -/
def extract_provider_message : PyError → String
  | .generic _ _ (some m) _ => m
  | _ => ""

/-- utils/error.py _get_provider_name. -/
def get_provider_name (moduleName : String) : String :=
  if pyInStr "openai" moduleName then "OpenAI"
  else if pyInStr "anthropic" moduleName then "Anthropic"
  else if pyInStr "google" moduleName || pyInStr "genai" moduleName then "Google"
  else "Provider"

/-- utils/error.py extract_error_message: ModelHTTPError renders as model name
plus API message; two known substrings map to fixed texts; provider error
types with a non-empty provider message render as provider plus message;
otherwise long texts are reduced by the message regex or truncated to 150
characters, and the result is labelled with the error type. -/
def extract_error_message (e : PyError) : String :=
  match e with
  | .modelHTTPError name body m => name ++ ": " ++ get_api_message body m
  | _ =>
    let errorStr := e.str
    if pyInStr "MALFORMED_FUNCTION_CALL" errorStr then
      "The AI model had trouble executing a function. Please try again."
    else if pyInStr "Content field missing" errorStr then
      "The AI model returned an unexpected response format. This might be a temporary issue."
    else
      let errorType := e.typeName
      if (errorType = "ClientError" || errorType = "APIStatusError" ||
          errorType = "BadRequestError" || errorType = "AuthenticationError") &&
          extract_provider_message e != "" then
        get_provider_name e.moduleName ++ ": " ++ extract_provider_message e
      else
        let errorStr2 :=
          if 150 < errorStr.toList.length then
            match reMessageSearch errorStr with
            | some m => m
            | none => String.mk (errorStr.toList.take 150) ++ "..."
          else errorStr
        "Unexpected error (" ++ errorType ++ "): " ++ errorStr2

/-- utils/error.py should_log_error: everything except CancelledError,
KeyboardInterrupt and ModelHTTPError is logged to a file. -/
def should_log_error (e : PyError) : Bool :=
  !(e.isCancelled || e.isKeyboardInt || e.isModelHTTP)

/-- Outcome of utils/error.py handle_error: the displayed message, whether
save_error_log wrote a diagnostic file, and the log path shown (as the detail
of the error panel) if one was written. -/
structure HandledError where
  message : String
  logWritten : Bool
  logPathShown : Option String
deriving DecidableEq, Repr

/-- utils/error.py handle_error, with the path save_error_log would return
supplied as logFile. -/
def handle_error (e : PyError) (logFile : String) : HandledError :=
  let message := extract_error_message e
  if should_log_error e then ⟨message, true, some logFile⟩
  else ⟨message, false, none⟩

/-- Observable UI events of a request resolution, in order of occurrence. -/
inductive Ev where
  | spinnerStarted
  | spinnerStopped
  | patchedHistory
  | warnedCancelled
  | shownErrorPanel (message : String) (logPath : Option String)
  | warnedInterrupted
  | renderedOutput (text : String)
deriving DecidableEq, Repr

/-- Result of ErrorContext.handle: the message history after cleanups, the UI
events emitted, and whether the error was re-raised (ModelRetry). -/
structure CtxHandleResult where
  messages : List Message
  events : List Ev
  reraised : Bool
deriving DecidableEq, Repr

/-- utils/error.py ErrorContext.handle: re-raise ModelRetry before anything
else; otherwise stop the spinner, run the cleanup callbacks, then warn on
CancelledError or delegate to handle_error. hasPatchCleanup selects between
the agent context of process_request, whose single registered cleanup patches
the history with str(error), and the request context of the REPL, which
registers none. -/
def ctxHandle (hasPatchCleanup : Bool) (msgs : List Message) (e : PyError)
    (logFile : String) : CtxHandleResult :=
  if e.isModelRetry then ⟨msgs, [], true⟩
  else
    let msgs1 := if hasPatchCleanup then patch_history_on_error msgs e.str else msgs
    let evs1 := Ev.spinnerStopped ::
      (if hasPatchCleanup then [Ev.patchedHistory] else [])
    if e.isCancelled then ⟨msgs1, evs1 ++ [Ev.warnedCancelled], false⟩
    else
      let h := handle_error e logFile
      ⟨msgs1, evs1 ++ [Ev.shownErrorPanel h.message h.logPathShown], false⟩

/-- How the awaited agent run ends: a final output, or an error raised. -/
inductive AgentRunResult where
  | ok (output : String)
  | err (e : PyError)
deriving DecidableEq, Repr

/-- How process_request returns to its awaiter: a normal return (the output,
or none when the error context swallowed an exception) or a raised error. -/
inductive PRResult where
  | returned (output : Option String)
  | raised (e : PyError)
deriving DecidableEq, Repr

/-- Resolution of one process_request call: the message history afterwards,
the UI events emitted inside it, and how it returns. -/
structure PRRun where
  messages : List Message
  events : List Ev
  result : PRResult
deriving DecidableEq, Repr

/-- agent.py process_request, resolution part: a successful run returns the
output; except Exception catches only Exception-derived errors and routes
them through the agent ErrorContext whose cleanup patches the history, after
which None is returned — unless the context re-raised ModelRetry;
CancelledError and KeyboardInterrupt are not caught and propagate. -/
def process_request_resolve (msgs : List Message) (r : AgentRunResult)
    (logFile : String) : PRRun :=
  match r with
  | .ok out => ⟨msgs, [], PRResult.returned (some out)⟩
  | .err e =>
    if e.isExceptionClass then
      let h := ctxHandle true msgs e logFile
      if h.reraised then ⟨h.messages, h.events, PRResult.raised e⟩
      else ⟨h.messages, h.events, PRResult.returned none⟩
    else ⟨msgs, [], PRResult.raised e⟩

/-- One run of repl.py Repl._handle_user_request: the session state right
after dispatch, the final session state, the UI events, and an error escaping
the method (the re-raised ModelRetry case). -/
structure HURRun where
  dispatched : SessionS
  final : SessionS
  events : List Ev
  escaped : Option PyError
deriving DecidableEq, Repr

/-- repl.py Repl._handle_user_request: start the spinner, clear
sigint_received, store the fresh task in current_task, await it (modelled by
process_request_resolve of the supplied agent-run result); on normal return
stop the spinner and render a non-empty response; on CancelledError delegate
to the request ErrorContext, which has no cleanups; on KeyboardInterrupt stop
the spinner and warn; on any other exception delegate to the request context
as well; the finally clause clears current_task on every path. -/
def handle_user_request (s : SessionS) (tid : Nat) (r : AgentRunResult)
    (logFile : String) : HURRun :=
  let s1 := { s with sigintReceived := false, currentTask := some (TaskHandle.mk tid false) }
  let pr := process_request_resolve s1.messages r logFile
  match pr.result with
  | PRResult.returned out =>
    let renderEvs := match out with
      | some t => if t = "" then ([] : List Ev) else [Ev.renderedOutput t]
      | none => ([] : List Ev)
    ⟨s1, { s1 with messages := pr.messages, currentTask := none },
      Ev.spinnerStarted :: (pr.events ++ (Ev.spinnerStopped :: renderEvs)), none⟩
  | PRResult.raised e =>
    if e.isCancelled then
      let h := ctxHandle false pr.messages e logFile
      ⟨s1, { s1 with messages := h.messages, currentTask := none },
        Ev.spinnerStarted :: (pr.events ++ h.events), none⟩
    else if e.isKeyboardInt then
      ⟨s1, { s1 with messages := pr.messages, currentTask := none },
        Ev.spinnerStarted :: (pr.events ++ [Ev.spinnerStopped, Ev.warnedInterrupted]),
        none⟩
    else
      let h := ctxHandle false pr.messages e logFile
      ⟨s1, { s1 with messages := h.messages, currentTask := none },
        Ev.spinnerStarted :: (pr.events ++ h.events),
        if h.reraised then some e else none⟩

/-- utils/command.py extract_commands, first phase: split the command string
on separators outside quotes - the two-character separators
double-ampersand and double-pipe, then the single characters semicolon and
pipe; quote characters toggle the quoting state and stay in the part;
separator characters are dropped and empty parts are not emitted. -/
def splitSeparators : List Char → Bool → Bool → List Char → List (List Char)
  | [], _, _, cur => if cur.isEmpty then [] else [cur]
  | [c], inS, inD, cur =>
    if c == squote && !inD then [cur ++ [c]]
    else if c == '"' && !inS then [cur ++ [c]]
    else if !inS && !inD then
      if c == ';' || c == '|' then (if cur.isEmpty then [] else [cur])
      else [cur ++ [c]]
    else [cur ++ [c]]
  | c :: c2 :: rest2, inS, inD, cur =>
    if c == squote && !inD then
      splitSeparators (c2 :: rest2) (!inS) inD (cur ++ [c])
    else if c == '"' && !inS then
      splitSeparators (c2 :: rest2) inS (!inD) (cur ++ [c])
    else if !inS && !inD then
      if (c == '&' && c2 == '&') || (c == '|' && c2 == '|') then
        (if cur.isEmpty then [] else [cur]) ++ splitSeparators rest2 inS inD []
      else if c == ';' || c == '|' then
        (if cur.isEmpty then [] else [cur]) ++
          splitSeparators (c2 :: rest2) inS inD []
      else splitSeparators (c2 :: rest2) inS inD (cur ++ [c])
    else splitSeparators (c2 :: rest2) inS inD (cur ++ [c])

/-- States of the posix-mode shlex lexer: outside quotes, inside single
quotes, inside double quotes, after an escape outside quotes, and after an
escape inside double quotes. -/
inductive ShState where
  | out
  | inSingle
  | inDouble
  | escOut
  | escDouble
deriving DecidableEq, Repr

/-- The whitespace characters of the shlex lexer. -/
def isShWs (c : Char) : Bool := c == ' ' || c == '\t' || c == '\r' || c == '\n'

/-- Python shlex.split in posix mode with whitespace_split, as used by
extract_commands: whitespace separates tokens; single quotes take everything
literally; double quotes take everything except a backslash escaping a quote
or backslash; a backslash outside quotes takes the next character literally; a
quoted region makes even an empty token real. none models the ValueError
raised on an unclosed quote or a dangling escape, which triggers the fallback
split in extract_commands. -/
def shlexGo : List Char → ShState → Option (List Char) → List String →
    Option (List String)
  | [], ShState.out, cur, toks =>
    some (toks ++ (match cur with | some t => [String.mk t] | none => []))
  | [], _, _, _ => none
  | c :: rest, ShState.out, cur, toks =>
    if isShWs c then
      match cur with
      | some t => shlexGo rest ShState.out none (toks ++ [String.mk t])
      | none => shlexGo rest ShState.out none toks
    else if c == squote then shlexGo rest ShState.inSingle (some (cur.getD [])) toks
    else if c == '"' then shlexGo rest ShState.inDouble (some (cur.getD [])) toks
    else if c == '\\' then shlexGo rest ShState.escOut (some (cur.getD [])) toks
    else shlexGo rest ShState.out (some (cur.getD [] ++ [c])) toks
  | c :: rest, ShState.inSingle, cur, toks =>
    if c == squote then shlexGo rest ShState.out cur toks
    else shlexGo rest ShState.inSingle (some (cur.getD [] ++ [c])) toks
  | c :: rest, ShState.inDouble, cur, toks =>
    if c == '"' then shlexGo rest ShState.out cur toks
    else if c == '\\' then shlexGo rest ShState.escDouble cur toks
    else shlexGo rest ShState.inDouble (some (cur.getD [] ++ [c])) toks
  | c :: rest, ShState.escOut, cur, toks =>
    shlexGo rest ShState.out (some (cur.getD [] ++ [c])) toks
  | c :: rest, ShState.escDouble, cur, toks =>
    if c == '"' || c == '\\' then
      shlexGo rest ShState.inDouble (some (cur.getD [] ++ [c])) toks
    else shlexGo rest ShState.inDouble (some (cur.getD [] ++ ['\\', c])) toks

/-- Python shlex.split(s) in posix mode. -/
def pyShlexSplit (s : String) : Option (List String) :=
  shlexGo s.toList ShState.out none []

/-- Python command.split("/")[-1]: the text after the last slash. -/
def lastPathComponent (s : String) : String :=
  String.mk ((s.toList.reverse.takeWhile (fun c => !(c == '/'))).reverse)

/-- utils/command.py extract_commands: split on unquoted separators, strip
each part and skip empties, tokenize each part with shlex - falling back to a
plain whitespace split when shlex raises - then keep the last path component
of the first token. -/
def extract_commands (commandString : String) : List String :=
  (splitSeparators commandString.toList false false []).filterMap (fun p =>
    let part := pyStrip (String.mk p)
    if part = "" then none
    else
      match pyShlexSplit part with
      | some toks =>
        match toks with
        | [] => none
        | t :: _ => some (lastPathComponent t)
      | none =>
        match pySplitWs part with
        | [] => none
        | t :: _ => some (lastPathComponent t))

/-- utils/command.py is_command_allowed: every extracted command name is in
the allowed set (vacuously true when none is extracted). -/
def is_command_allowed (commandString : String) (allowed : List String) : Bool :=
  (extract_commands commandString).all (fun c => allowed.contains c)

/-- How a run_command call ends, beside its session effect: it reaches the
subprocess, the user denies and CancelledError is raised, or the prompt never
resolves. -/
inductive RCOutcome where
  | executed
  | cancelledByUser
  | blockedAtPrompt
deriving DecidableEq, Repr

/-- One run of tools/run_command.py run_command up to the subprocess call. -/
structure RunCommandRun where
  session : SessionS
  confirmInvoked : Bool
  outcome : RCOutcome
deriving DecidableEq, Repr

/-- tools/run_command.py run_command, gating phase: when the command string is
not fully allowed, invoke confirm with title Run Command; a denial raises
CancelledError; an approval adds every extracted command name to
session.allowed_commands and proceeds; a fully allowed command only shows a
status line and proceeds without invoking the gate. -/
def run_command (s : SessionS) (command : String) (lines : List String) :
    RunCommandRun :=
  if !(is_command_allowed command s.allowedCommands) then
    let c := confirm s "Run Command" lines
    match c.result with
    | some false => ⟨c.session, true, RCOutcome.cancelledByUser⟩
    | some true =>
      ⟨{ c.session with
          allowedCommands :=
            updateSet c.session.allowedCommands (extract_commands command) },
        true, RCOutcome.executed⟩
    | none => ⟨c.session, true, RCOutcome.blockedAtPrompt⟩
  else ⟨s, false, RCOutcome.executed⟩

lemma partKind_eq_toolCall_iff (p : Part) :
    p.partKind = "tool-call" ↔ ∃ n c a, p = Part.toolCall n c a := by
  cases p <;> simp [Part.partKind]

lemma lastToolCallPart_shape (parts : List Part) (p : Part)
    (h : lastToolCallPart parts = some p) : ∃ n c a, p = Part.toolCall n c a := by
  have hp := List.find?_some h
  exact (partKind_eq_toolCall_iff p).mp (by simpa using hp)

lemma lastToolCallPart_isSome_iff (parts : List Part) :
    (∃ p ∈ parts, p.partKind = "tool-call") ↔
      ∃ n c a, lastToolCallPart parts = some (Part.toolCall n c a) := by
  constructor
  · intro ⟨p, hp, hk⟩
    have : (parts.reverse.find? (fun q => q.partKind = "tool-call")).isSome := by
      rw [List.find?_isSome]
      exact ⟨p, by simpa using hp, by simpa using hk⟩
    obtain ⟨q, hq⟩ := Option.isSome_iff_exists.mp this
    obtain ⟨n, c, a, rfl⟩ := lastToolCallPart_shape parts q hq
    exact ⟨n, c, a, hq⟩
  · intro ⟨n, c, a, h⟩
    have hmem : Part.toolCall n c a ∈ parts.reverse := List.mem_of_find?_eq_some h
    exact ⟨Part.toolCall n c a, by simpa using hmem, rfl⟩

/-- C1: for every call to patch_history_on_error, if the history is non-empty,
its last entry is a response-kind entry, and that entry has at least one
tool-call part, then exactly one entry is appended, a single tool-return part
whose call id and tool name are those of the rearmost tool-call part and whose
content is the error message; in every other case the history is unchanged. -/
theorem patch_history_on_error_spec (msgs : List Message) (em : String) :
    (msgs = [] → patch_history_on_error msgs em = msgs) ∧
    (∀ lastMessage, msgs.getLast? = some lastMessage →
      (lastMessage.kind ≠ "response" → patch_history_on_error msgs em = msgs) ∧
      (lastToolCallPart lastMessage.parts = none →
        patch_history_on_error msgs em = msgs) ∧
      (∀ n cid args, lastMessage.kind = "response" →
        lastToolCallPart lastMessage.parts = some (Part.toolCall n cid args) →
        patch_history_on_error msgs em =
          msgs ++ [Message.mk "request" [Part.toolReturn n cid em]]) ∧
      ((∃ p ∈ lastMessage.parts, p.partKind = "tool-call") ↔
        (∃ n c a, lastToolCallPart lastMessage.parts = some (Part.toolCall n c a)))) := by
  refine ⟨fun h => by simp [patch_history_on_error, h], ?_⟩
  intro lastMessage hlast
  refine ⟨?_, ?_, ?_, lastToolCallPart_isSome_iff lastMessage.parts⟩
  · intro hk
    simp [patch_history_on_error, hlast, hk]
  · intro hnone
    simp [patch_history_on_error, hlast, hnone]
  · intro n cid args hk hfind
    simp [patch_history_on_error, hlast, hk, hfind]

/-- Witness for C1 at a concrete history whose last entry is a response with a
tool-call part. -/
theorem patch_history_on_error_spec_witness :
    patch_history_on_error
        [Message.mk "response"
          [Part.text "thinking", Part.toolCall "write_file" "c1" "argdata", Part.text "tail"]]
        "boom"
      = [Message.mk "response"
          [Part.text "thinking", Part.toolCall "write_file" "c1" "argdata", Part.text "tail"],
         Message.mk "request" [Part.toolReturn "write_file" "c1" "boom"]] :=
  ((patch_history_on_error_spec
      [Message.mk "response"
        [Part.text "thinking", Part.toolCall "write_file" "c1" "argdata", Part.text "tail"]]
      "boom").2
    (Message.mk "response"
      [Part.text "thinking", Part.toolCall "write_file" "c1" "argdata", Part.text "tail"])
    rfl).2.2.1 "write_file" "c1" "argdata" rfl (by decide)

lemma confirmLoop_preserves (tn : String) (s : SessionS) (lines : List String) :
    (confirmLoop tn s lines).2.1.messages = s.messages ∧
    (confirmLoop tn s lines).2.1.currentTask = s.currentTask ∧
    (confirmLoop tn s lines).2.1.sigintReceived = s.sigintReceived ∧
    (confirmLoop tn s lines).2.1.confirmationEnabled = s.confirmationEnabled ∧
    (confirmLoop tn s lines).2.1.allowedCommands = s.allowedCommands := by
  induction lines with
  | nil => simp [confirmLoop]
  | cons l rest ih =>
    simp only [confirmLoop]
    split
    · simp
    · split
      · simp
      · split
        · simp
        · exact ih

lemma confirmLoop_disabled (tn : String) (s : SessionS) (lines : List String) :
    (confirmLoop tn s lines).2.1.disabledConfirmations = s.disabledConfirmations ∨
    (confirmLoop tn s lines).2.1.disabledConfirmations =
      addToSet tn s.disabledConfirmations := by
  induction lines with
  | nil => simp [confirmLoop]
  | cons l rest ih =>
    simp only [confirmLoop]
    split
    · left; rfl
    · split
      · right; rfl
      · split
        · left; rfl
        · exact ih

lemma mem_addToSet_self (x : String) (s : List String) : x ∈ addToSet x s := by
  by_cases h : x ∈ s <;> simp [addToSet, h]

lemma mem_addToSet_of_mem {x : String} {s : List String} (y : String) (h : x ∈ s) :
    x ∈ addToSet y s := by
  by_cases hc : y ∈ s <;> simp [addToSet, hc, h]

lemma confirm_preserves (s : SessionS) (title : String) (lines : List String) :
    (confirm s title lines).session.messages = s.messages ∧
    (confirm s title lines).session.currentTask = s.currentTask ∧
    (confirm s title lines).session.sigintReceived = s.sigintReceived ∧
    (confirm s title lines).session.confirmationEnabled = s.confirmationEnabled ∧
    (confirm s title lines).session.allowedCommands = s.allowedCommands := by
  by_cases hc : s.confirmationEnabled = false ∨
      deriveToolName title ∈ s.disabledConfirmations
  · simp [confirm, hc]
  · simp only [confirm]
    rw [if_neg (by simpa using hc)]
    simpa using confirmLoop_preserves (deriveToolName title)
      { s with spinner := stopSpinnerObj s.spinner } lines

lemma confirm_disabled_sub (s : SessionS) (title : String) (lines : List String) :
    ∀ x, x ∈ s.disabledConfirmations →
      x ∈ (confirm s title lines).session.disabledConfirmations := by
  intro x hx
  by_cases hc : s.confirmationEnabled = false ∨
      deriveToolName title ∈ s.disabledConfirmations
  · simpa [confirm, hc] using hx
  · simp only [confirm]
    rw [if_neg (by simpa using hc)]
    rcases confirmLoop_disabled (deriveToolName title)
      { s with spinner := stopSpinnerObj s.spinner } lines with h | h
    · simp only [h]; exact hx
    · simp only [h]; exact mem_addToSet_of_mem _ hx

lemma confirm_of_disabled_or_exempt (s : SessionS) (title : String)
    (lines : List String)
    (h : s.confirmationEnabled = false ∨
        s.disabledConfirmations.contains (deriveToolName title) = true) :
    confirm s title lines = ⟨some true, s, 0, false⟩ := by
  have hb : (!s.confirmationEnabled ||
      s.disabledConfirmations.contains (deriveToolName title)) = true := by
    rcases h with h | h
    · simp [h]
    · rw [h]
      simp
  simp only [confirm]
  rw [if_pos hb]

/-- C6: when confirmations are disabled or the derived tool name is already
exempt, confirm returns true at once with no panel rendered, no prompt read
and the session untouched; and for an already-exempt tool two consecutive
calls both return true with no output and leave the session unchanged. -/
theorem confirm_short_circuit (s : SessionS) (title : String)
    (lines lines2 : List String) :
    ((s.confirmationEnabled = false ∨
        s.disabledConfirmations.contains (deriveToolName title) = true) →
      confirm s title lines = ⟨some true, s, 0, false⟩) ∧
    (s.disabledConfirmations.contains (deriveToolName title) = true →
      confirm s title lines = ⟨some true, s, 0, false⟩ ∧
      confirm (confirm s title lines).session title lines2 =
        ⟨some true, s, 0, false⟩) := by
  refine ⟨confirm_of_disabled_or_exempt s title lines, fun h => ?_⟩
  have h1 := confirm_of_disabled_or_exempt s title lines (Or.inr h)
  refine ⟨h1, ?_⟩
  rw [h1]
  exact confirm_of_disabled_or_exempt s title lines2 (Or.inr h)

/-- Witness for C6: a tool already in disabled_confirmations short-circuits
twice in a row. -/
theorem confirm_short_circuit_witness :
    confirm { sessionDefault with disabledConfirmations := ["write_file"] }
        "write_file: create foo.txt" ["n"] =
      ⟨some true, { sessionDefault with disabledConfirmations := ["write_file"] },
        0, false⟩ ∧
    confirm (confirm { sessionDefault with disabledConfirmations := ["write_file"] }
          "write_file: create foo.txt" ["n"]).session
        "write_file: create foo.txt" ["anything"] =
      ⟨some true, { sessionDefault with disabledConfirmations := ["write_file"] },
        0, false⟩ :=
  (confirm_short_circuit
      { sessionDefault with disabledConfirmations := ["write_file"] }
      "write_file: create foo.txt" ["n"] ["anything"]).2 (by decide)

/-- C7: disabled_confirmations can only acquire a new element through a
confirm call made while confirmation is enabled; /yolo from disabled
re-enables and clears the set, /yolo from enabled disables and keeps the set;
a confirm call never removes an element. -/
theorem disabled_confirmations_lifecycle (s : SessionS) (op : SessionOp)
    (title : String) (lines : List String) :
    ((∃ x, x ∈ (applySessionOp op s).disabledConfirmations ∧
        x ∉ s.disabledConfirmations) →
      s.confirmationEnabled = true ∧ ∃ t ls, op = SessionOp.confirmCall t ls) ∧
    (s.confirmationEnabled = false →
      handle_yolo s =
        { s with confirmationEnabled := true, disabledConfirmations := [] }) ∧
    (s.confirmationEnabled = true →
      handle_yolo s = { s with confirmationEnabled := false }) ∧
    (∀ x, x ∈ s.disabledConfirmations →
      x ∈ (confirm s title lines).session.disabledConfirmations) := by
  refine ⟨?_, ?_, ?_, confirm_disabled_sub s title lines⟩
  · rintro ⟨x, hx, hnx⟩
    cases op with
    | yolo =>
      exfalso
      by_cases he : s.confirmationEnabled
      · simp [applySessionOp, handle_yolo, he] at hx
        exact hnx hx
      · simp [applySessionOp, handle_yolo, he] at hx
    | confirmCall t ls =>
      refine ⟨?_, t, ls, rfl⟩
      by_cases he : s.confirmationEnabled
      · exact he
      · exfalso
        rw [show applySessionOp (SessionOp.confirmCall t ls) s =
            (confirm s t ls).session from rfl,
          confirm_of_disabled_or_exempt s t ls (Or.inl (by simpa using he))] at hx
        exact hnx hx
  · intro he
    simp [handle_yolo, he]
  · intro he
    simp [handle_yolo, he]

/-- Witness for C7: a confirm call answered with always, made while
confirmation is enabled, grows the set. -/
theorem disabled_confirmations_lifecycle_witness :
    sessionDefault.confirmationEnabled = true ∧
    (∃ t ls, SessionOp.confirmCall "write_file" ["a"] =
      SessionOp.confirmCall t ls) ∧
    handle_yolo { sessionDefault with confirmationEnabled := false } =
      { sessionDefault with
        confirmationEnabled := true
        disabledConfirmations := [] } :=
  ⟨((disabled_confirmations_lifecycle sessionDefault
        (SessionOp.confirmCall "write_file" ["a"]) "write_file" ["a"]).1
      ⟨"write_file", by decide, by decide⟩).1,
   ((disabled_confirmations_lifecycle sessionDefault
        (SessionOp.confirmCall "write_file" ["a"]) "write_file" ["a"]).1
      ⟨"write_file", by decide, by decide⟩).2,
   (disabled_confirmations_lifecycle
        { sessionDefault with confirmationEnabled := false }
        SessionOp.yolo "x" []).2.1 rfl⟩

lemma confirmLoop_of_find_none (tn : String) (s : SessionS) (lines : List String)
    (h : lines.find? (fun l => isRecognized (choiceOf l)) = none) :
    confirmLoop tn s lines = (none, s, lines.length) := by
  induction lines with
  | nil => simp [confirmLoop]
  | cons l rest ih =>
    by_cases hr : isRecognized (choiceOf l) = true
    · rw [List.find?_cons_of_pos (p := fun x => isRecognized (choiceOf x)) _ hr] at h
      exact absurd h (by simp)
    · rw [List.find?_cons_of_neg (p := fun x => isRecognized (choiceOf x)) _ hr] at h
      have hn1 : ¬(choiceOf l = "" ∨ choiceOf l = "y" ∨ choiceOf l = "yes") :=
        fun hcc => hr (by rcases hcc with h1 | h1 | h1 <;> simp [isRecognized, h1])
      have hn2 : ¬(choiceOf l = "a" ∨ choiceOf l = "always") :=
        fun hcc => hr (by rcases hcc with h1 | h1 <;> simp [isRecognized, h1])
      have hn3 : ¬(choiceOf l = "n" ∨ choiceOf l = "no") :=
        fun hcc => hr (by rcases hcc with h1 | h1 <;> simp [isRecognized, h1])
      simp only [confirmLoop]
      rw [if_neg hn1, if_neg hn2, if_neg hn3, ih h]
      simp

lemma confirmLoop_of_find_some (tn : String) (s : SessionS) (lines : List String)
    (line : String)
    (h : lines.find? (fun l => isRecognized (choiceOf l)) = some line) :
    ((choiceOf line = "" ∨ choiceOf line = "y" ∨ choiceOf line = "yes") →
      (confirmLoop tn s lines).1 = some true ∧
      (confirmLoop tn s lines).2.1 =
        { s with spinner := startSpinnerObj s.spinner }) ∧
    ((choiceOf line = "a" ∨ choiceOf line = "always") →
      (confirmLoop tn s lines).1 = some true ∧
      (confirmLoop tn s lines).2.1 =
        { s with
          disabledConfirmations := addToSet tn s.disabledConfirmations
          spinner := startSpinnerObj s.spinner }) ∧
    ((choiceOf line = "n" ∨ choiceOf line = "no") →
      (confirmLoop tn s lines).1 = some false ∧
      (confirmLoop tn s lines).2.1 = s) := by
  induction lines with
  | nil => simp at h
  | cons l rest ih =>
    by_cases hr : isRecognized (choiceOf l) = true
    · rw [List.find?_cons_of_pos (p := fun x => isRecognized (choiceOf x)) _ hr] at h
      obtain rfl : l = line := by simpa using h
      refine ⟨fun hy => ?_, fun ha => ?_, fun hn => ?_⟩
      · rcases hy with h1 | h1 | h1 <;> simp [confirmLoop, h1]
      · rcases ha with h1 | h1 <;> simp [confirmLoop, h1]
      · rcases hn with h1 | h1 <;> simp [confirmLoop, h1]
    · rw [List.find?_cons_of_neg (p := fun x => isRecognized (choiceOf x)) _ hr] at h
      have hn1 : ¬(choiceOf l = "" ∨ choiceOf l = "y" ∨ choiceOf l = "yes") :=
        fun hcc => hr (by rcases hcc with h1 | h1 | h1 <;> simp [isRecognized, h1])
      have hn2 : ¬(choiceOf l = "a" ∨ choiceOf l = "always") :=
        fun hcc => hr (by rcases hcc with h1 | h1 <;> simp [isRecognized, h1])
      have hn3 : ¬(choiceOf l = "n" ∨ choiceOf l = "no") :=
        fun hcc => hr (by rcases hcc with h1 | h1 <;> simp [isRecognized, h1])
      have hstep : confirmLoop tn s (l :: rest) =
          ((confirmLoop tn s rest).1, (confirmLoop tn s rest).2.1,
            (confirmLoop tn s rest).2.2 + 1) := by
        simp only [confirmLoop]
        rw [if_neg hn1, if_neg hn2, if_neg hn3]
      rw [hstep]
      exact ih h

/-- C2 counterexample: the prompt also accepts the line no (and likewise yes
and always), so confirm can return false on input that is not the single
letter n after trimming and lowercasing. -/
theorem confirm_deny_alias_counterexample :
    (choiceOf "no" == "n") = false ∧
    (confirm sessionDefault "Run Command" ["no"]).result = some false := by
  decide

/-- C2 (amended): at the interactive prompt, confirm returns false exactly on
a first recognised line reading n or no; an empty line, y or yes returns true;
a or always inserts the derived tool name into disabled_confirmations and
returns true; every other line is rejected and the prompt loops, blocking
forever if no recognised line arrives. -/
theorem confirm_prompt_resolution (s : SessionS) (title : String)
    (lines : List String)
    (h1 : s.confirmationEnabled = true)
    (h2 : deriveToolName title ∉ s.disabledConfirmations) :
    (lines.find? (fun l => isRecognized (choiceOf l)) = none →
      (confirm s title lines).result = none ∧
      (confirm s title lines).session.disabledConfirmations =
        s.disabledConfirmations) ∧
    (∀ line, lines.find? (fun l => isRecognized (choiceOf l)) = some line →
      ((choiceOf line = "n" ∨ choiceOf line = "no") →
        (confirm s title lines).result = some false ∧
        (confirm s title lines).session.disabledConfirmations =
          s.disabledConfirmations) ∧
      ((choiceOf line = "a" ∨ choiceOf line = "always") →
        (confirm s title lines).result = some true ∧
        (confirm s title lines).session.disabledConfirmations =
          addToSet (deriveToolName title) s.disabledConfirmations) ∧
      ((choiceOf line = "" ∨ choiceOf line = "y" ∨ choiceOf line = "yes") →
        (confirm s title lines).result = some true ∧
        (confirm s title lines).session.disabledConfirmations =
          s.disabledConfirmations)) := by
  have hred : confirm s title lines =
      ⟨(confirmLoop (deriveToolName title)
          { s with spinner := stopSpinnerObj s.spinner } lines).1,
        (confirmLoop (deriveToolName title)
          { s with spinner := stopSpinnerObj s.spinner } lines).2.1,
        (confirmLoop (deriveToolName title)
          { s with spinner := stopSpinnerObj s.spinner } lines).2.2, true⟩ := by
    simp only [confirm]
    rw [if_neg (by simp [h1, h2])]
  constructor
  · intro hnone
    rw [hred]
    have hcl := confirmLoop_of_find_none (deriveToolName title)
      { s with spinner := stopSpinnerObj s.spinner } lines hnone
    rw [hcl]
    exact ⟨rfl, rfl⟩
  · intro line hsome
    have hch := confirmLoop_of_find_some (deriveToolName title)
      { s with spinner := stopSpinnerObj s.spinner } lines line hsome
    refine ⟨fun hn => ?_, fun ha => ?_, fun hy => ?_⟩
    · rw [hred]
      obtain ⟨r1, r2⟩ := hch.2.2 hn
      rw [r1, r2]
      exact ⟨rfl, rfl⟩
    · rw [hred]
      obtain ⟨r1, r2⟩ := hch.2.1 ha
      rw [r1, r2]
      exact ⟨rfl, rfl⟩
    · rw [hred]
      obtain ⟨r1, r2⟩ := hch.1 hy
      rw [r1, r2]
      exact ⟨rfl, rfl⟩

/-- Witness for the amended C2: one unrecognised line then always resolves to
true and records the tool name. -/
theorem confirm_prompt_resolution_witness :
    (confirm sessionDefault "Run Command" ["maybe", "a"]).result = some true ∧
    (confirm sessionDefault "Run Command" ["maybe", "a"]).session.disabledConfirmations =
      addToSet (deriveToolName "Run Command")
        sessionDefault.disabledConfirmations :=
  ((confirm_prompt_resolution sessionDefault "Run Command" ["maybe", "a"]
      rfl (by decide)).2 "a" (by decide)).2.1 (by decide)

lemma confirmLoop_spinner (tn : String) (s : SessionS) (lines : List String)
    (hsp : s.spinner = some false) :
    ((confirmLoop tn s lines).1 = some true →
      (confirmLoop tn s lines).2.1.spinner = some true) ∧
    ((confirmLoop tn s lines).1 = some false →
      (confirmLoop tn s lines).2.1.spinner = some false) ∧
    ((confirmLoop tn s lines).1 = none →
      (confirmLoop tn s lines).2.1.spinner = some false) := by
  induction lines with
  | nil => simp [confirmLoop, hsp]
  | cons l rest ih =>
    simp only [confirmLoop]
    split
    · simp [hsp, startSpinnerObj]
    · split
      · simp [hsp, startSpinnerObj]
      · split
        · simp [hsp]
        · exact ih

/-- C8 counterexample: with an active spinner at entry, answering n leaves the
spinner stopped when confirm returns, so the indicator is not restored on
every resolution. -/
theorem confirm_spinner_counterexample :
    (confirm { sessionDefault with spinner := some true }
      "write_file" ["n"]).result = some false ∧
    (confirm { sessionDefault with spinner := some true }
      "write_file" ["n"]).session.spinner = some false := by
  decide

/-- C8 (amended): for a confirm call that reached the interactive prompt with
a spinner object present, an approving resolution (y or a) leaves the spinner
running, while a denial (n) or an exhausted input leaves it stopped. -/
theorem confirm_spinner_restore (s : SessionS) (title : String)
    (lines : List String) (b : Bool)
    (h1 : s.confirmationEnabled = true)
    (h2 : deriveToolName title ∉ s.disabledConfirmations)
    (hsp : s.spinner = some b) :
    ((confirm s title lines).result = some true →
      (confirm s title lines).session.spinner = some true) ∧
    ((confirm s title lines).result = some false →
      (confirm s title lines).session.spinner = some false) ∧
    ((confirm s title lines).result = none →
      (confirm s title lines).session.spinner = some false) := by
  have hred : confirm s title lines =
      ⟨(confirmLoop (deriveToolName title)
          { s with spinner := stopSpinnerObj s.spinner } lines).1,
        (confirmLoop (deriveToolName title)
          { s with spinner := stopSpinnerObj s.spinner } lines).2.1,
        (confirmLoop (deriveToolName title)
          { s with spinner := stopSpinnerObj s.spinner } lines).2.2, true⟩ := by
    simp only [confirm]
    rw [if_neg (by simp [h1, h2])]
  rw [hred]
  exact confirmLoop_spinner (deriveToolName title)
    { s with spinner := stopSpinnerObj s.spinner } lines (by simp [hsp, stopSpinnerObj])

/-- Witness for the amended C8: answering y restarts an active spinner. -/
theorem confirm_spinner_restore_witness :
    (confirm { sessionDefault with spinner := some true }
      "write_file" ["y"]).session.spinner = some true :=
  (confirm_spinner_restore { sessionDefault with spinner := some true }
      "write_file" ["y"] true rfl (by decide) rfl).1 (by decide)


/-- C3: the installed SIGINT handler sets sigint_received and changes no other
session field; with a present unfinished task it enqueues a thread-safe
cancellation of exactly that task; with no task, or an already finished one,
it raises KeyboardInterrupt, which breaks the REPL read loop. -/
theorem signal_handler_spec (s : SessionS) (d : Bool) :
    (signal_handler s).1 = { s with sigintReceived := true } ∧
    (∀ t, s.currentTask = some t → t.done = false →
      (signal_handler s).2 = SignalEffect.cancelEnqueued t.id) ∧
    (s.currentTask = none →
      (signal_handler s).2 = SignalEffect.raisedKeyboardInterrupt) ∧
    (∀ t, s.currentTask = some t → t.done = true →
      (signal_handler s).2 = SignalEffect.raisedKeyboardInterrupt) ∧
    replReadStep d PromptRead.interrupted = ReplAction.breakLoop := by
  refine ⟨?_, ?_, ?_, ?_, rfl⟩
  · cases h : s.currentTask with
    | none => simp [signal_handler, h]
    | some t => by_cases hd : t.done <;> simp [signal_handler, h, hd]
  · intro t ht hd
    simp [signal_handler, ht, hd]
  · intro h
    simp [signal_handler, h]
  · intro t ht hd
    simp [signal_handler, ht, hd]

/-- Witness for C3 with a running task of id 7. -/
theorem signal_handler_spec_witness :
    (signal_handler
        { sessionDefault with currentTask := some (TaskHandle.mk 7 false) }).2 =
      SignalEffect.cancelEnqueued 7 :=
  (signal_handler_spec
      { sessionDefault with currentTask := some (TaskHandle.mk 7 false) }
      false).2.1 (TaskHandle.mk 7 false) rfl rfl

/-- C5: dispatch stores the fresh task handle in current_task (after clearing
sigint_received), and every resolution path of the request handler - success,
cancellation, keyboard interrupt, explicit failure and the escaping re-raise -
leaves current_task cleared, so a task handle exists only strictly between
dispatch and resolution. -/
theorem current_task_single_flight (s : SessionS) (tid : Nat)
    (r : AgentRunResult) (logFile : String) :
    (handle_user_request s tid r logFile).dispatched =
      { s with sigintReceived := false, currentTask := some (TaskHandle.mk tid false) } ∧
    (handle_user_request s tid r logFile).dispatched.currentTask =
      some (TaskHandle.mk tid false) ∧
    (handle_user_request s tid r logFile).final.currentTask = none := by
  cases r with
  | ok out => exact ⟨rfl, rfl, rfl⟩
  | err e => cases e <;> exact ⟨rfl, rfl, rfl⟩

/-- C9: the error handler writes the diagnostic log file and shows its path
exactly when the error is none of CancelledError, KeyboardInterrupt and
ModelHTTPError; for those kinds only the derived message is displayed and no
log is written. -/
theorem handle_error_logging (e : PyError) (logFile : String) :
    (should_log_error e = true ↔
      e.isCancelled = false ∧ e.isKeyboardInt = false ∧ e.isModelHTTP = false) ∧
    (should_log_error e = true →
      handle_error e logFile =
        ⟨extract_error_message e, true, some logFile⟩) ∧
    (should_log_error e = false →
      handle_error e logFile = ⟨extract_error_message e, false, none⟩) := by
  refine ⟨?_, fun h => ?_, fun h => ?_⟩
  · cases e <;>
      simp [should_log_error, PyError.isCancelled, PyError.isKeyboardInt,
        PyError.isModelHTTP]
  · simp [handle_error, h]
  · simp [handle_error, h]

/-- Witness for C9: a cancellation is displayed without a log file. -/
theorem handle_error_logging_witness :
    handle_error (PyError.cancelledError "") "log.txt" =
      ⟨extract_error_message (PyError.cancelledError ""), false, none⟩ :=
  (handle_error_logging (PyError.cancelledError "") "log.txt").2.2 rfl

lemma hur_events_http (s : SessionS) (tid : Nat) (n : String)
    (b : Option ApiBody) (m : String) (logFile : String) :
    (handle_user_request s tid
        (AgentRunResult.err (PyError.modelHTTPError n b m)) logFile).events =
      [Ev.spinnerStarted, Ev.spinnerStopped, Ev.patchedHistory,
        Ev.shownErrorPanel
          (extract_error_message (PyError.modelHTTPError n b m)) none,
        Ev.spinnerStopped] := rfl

lemma hur_events_generic (s : SessionS) (tid : Nat) (t mod : String)
    (attr : Option String) (m : String) (logFile : String) :
    (handle_user_request s tid
        (AgentRunResult.err (PyError.generic t mod attr m)) logFile).events =
      [Ev.spinnerStarted, Ev.spinnerStopped, Ev.patchedHistory,
        Ev.shownErrorPanel
          (extract_error_message (PyError.generic t mod attr m)) (some logFile),
        Ev.spinnerStopped] := rfl

/-- C4: a cancellation resolution leaves the history untouched and never emits
the history patch; the patch is emitted only for a resolution by an explicit
Exception-class, non-cancellation, non-retry failure; when it is emitted it
strictly precedes the error panel; and on such failures the final history is
exactly the patched one. -/
theorem history_repair_on_failure_only (s : SessionS) (tid : Nat)
    (r : AgentRunResult) (logFile : String) (cm : String) :
    ((handle_user_request s tid
        (AgentRunResult.err (PyError.cancelledError cm)) logFile).final.messages
        = s.messages ∧
      Ev.patchedHistory ∉ (handle_user_request s tid
        (AgentRunResult.err (PyError.cancelledError cm)) logFile).events) ∧
    (Ev.patchedHistory ∈ (handle_user_request s tid r logFile).events →
      ∃ e, r = AgentRunResult.err e ∧ e.isExceptionClass = true ∧
        e.isCancelled = false ∧ e.isModelRetry = false) ∧
    (Ev.patchedHistory ∈ (handle_user_request s tid r logFile).events →
      ∃ pre post pm pp,
        (handle_user_request s tid r logFile).events =
          pre ++ Ev.patchedHistory :: post ∧
        Ev.shownErrorPanel pm pp ∈ post ∧
        ∀ m2 p2, Ev.shownErrorPanel m2 p2 ∉ pre) ∧
    (∀ e, e.isExceptionClass = true → e.isCancelled = false →
      e.isModelRetry = false →
      (handle_user_request s tid (AgentRunResult.err e) logFile).final.messages =
        patch_history_on_error s.messages (PyError.str e)) := by
  refine ⟨⟨rfl, by simp [handle_user_request, process_request_resolve, ctxHandle,
    PyError.isCancelled, PyError.isModelRetry, PyError.isExceptionClass]⟩,
    ?_, ?_, ?_⟩
  · intro hmem
    cases r with
    | ok out =>
      exfalso
      by_cases ho : out = "" <;>
        simp [handle_user_request, process_request_resolve, ho] at hmem
    | err e =>
      cases e with
      | cancelledError m =>
        exfalso
        simp [handle_user_request, process_request_resolve, ctxHandle,
          PyError.isCancelled, PyError.isModelRetry,
          PyError.isExceptionClass] at hmem
      | keyboardInterrupt m =>
        exfalso
        simp [handle_user_request, process_request_resolve, ctxHandle,
          PyError.isCancelled, PyError.isKeyboardInt, PyError.isModelRetry,
          PyError.isExceptionClass] at hmem
      | modelRetry m =>
        exfalso
        simp [handle_user_request, process_request_resolve, ctxHandle,
          PyError.isCancelled, PyError.isKeyboardInt, PyError.isModelRetry,
          PyError.isExceptionClass] at hmem
      | modelHTTPError n b m => exact ⟨_, rfl, rfl, rfl, rfl⟩
      | generic t mod attr m => exact ⟨_, rfl, rfl, rfl, rfl⟩
  · intro hmem
    cases r with
    | ok out =>
      exfalso
      by_cases ho : out = "" <;>
        simp [handle_user_request, process_request_resolve, ho] at hmem
    | err e =>
      cases e with
      | cancelledError m =>
        exfalso
        simp [handle_user_request, process_request_resolve, ctxHandle,
          PyError.isCancelled, PyError.isModelRetry,
          PyError.isExceptionClass] at hmem
      | keyboardInterrupt m =>
        exfalso
        simp [handle_user_request, process_request_resolve, ctxHandle,
          PyError.isCancelled, PyError.isKeyboardInt, PyError.isModelRetry,
          PyError.isExceptionClass] at hmem
      | modelRetry m =>
        exfalso
        simp [handle_user_request, process_request_resolve, ctxHandle,
          PyError.isCancelled, PyError.isKeyboardInt, PyError.isModelRetry,
          PyError.isExceptionClass] at hmem
      | modelHTTPError n b m =>
        refine ⟨[Ev.spinnerStarted, Ev.spinnerStopped],
          [Ev.shownErrorPanel
            (extract_error_message (PyError.modelHTTPError n b m)) none,
            Ev.spinnerStopped],
          extract_error_message (PyError.modelHTTPError n b m), none,
          ?_, by simp, by simp⟩
        rw [hur_events_http]
        rfl
      | generic t mod attr m =>
        refine ⟨[Ev.spinnerStarted, Ev.spinnerStopped],
          [Ev.shownErrorPanel
            (extract_error_message (PyError.generic t mod attr m)) (some logFile),
            Ev.spinnerStopped],
          extract_error_message (PyError.generic t mod attr m), some logFile,
          ?_, by simp, by simp⟩
        rw [hur_events_generic]
        rfl
  · intro e h1 h2 h3
    cases e with
    | cancelledError m => simp [PyError.isExceptionClass] at h1
    | keyboardInterrupt m => simp [PyError.isExceptionClass] at h1
    | modelRetry m => simp [PyError.isModelRetry] at h3
    | modelHTTPError n b m => rfl
    | generic t mod attr m => rfl

/-- Witness for C4: a generic failure patches the history before the error
panel, at a concrete input. -/
theorem history_repair_on_failure_only_witness :
    (handle_user_request sessionDefault 3
        (AgentRunResult.err (PyError.generic "ValueError" "builtins" none "boom"))
        "log.txt").final.messages =
      patch_history_on_error sessionDefault.messages
        (PyError.str (PyError.generic "ValueError" "builtins" none "boom")) :=
  (history_repair_on_failure_only sessionDefault 3
      (AgentRunResult.err (PyError.generic "ValueError" "builtins" none "boom"))
      "log.txt" "c").2.2.2
    (PyError.generic "ValueError" "builtins" none "boom") rfl rfl rfl


lemma mem_updateSet_of_mem_base (xs base : List String) (x : String)
    (hx : x ∈ base) : x ∈ updateSet base xs := by
  induction xs generalizing base with
  | nil => simpa [updateSet] using hx
  | cons y ys ih =>
    have heq : updateSet base (y :: ys) = updateSet (addToSet y base) ys := rfl
    rw [heq]
    exact ih (addToSet y base) (mem_addToSet_of_mem y hx)

lemma mem_updateSet_of_mem_list (xs base : List String) (x : String)
    (hx : x ∈ xs) : x ∈ updateSet base xs := by
  induction xs generalizing base with
  | nil => cases hx
  | cons y ys ih =>
    have heq : updateSet base (y :: ys) = updateSet (addToSet y base) ys := rfl
    rw [heq]
    rcases List.mem_cons.mp hx with rfl | hx2
    · exact mem_updateSet_of_mem_base ys (addToSet x base) x (mem_addToSet_self x base)
    · exact ih (addToSet y base) hx2

lemma is_command_allowed_iff (cmd : String) (al : List String) :
    is_command_allowed cmd al = true ↔ ∀ c ∈ extract_commands cmd, c ∈ al := by
  simp [is_command_allowed, List.all_eq_true]

/-- C10: a run_command call on a not fully allowed command string that the
user approves once adds every extracted command name to allowed_commands, so
the string itself becomes allowed, the call executes, and the gate was
invoked; a call whose command names are all allowed executes without invoking
the gate and leaves the session untouched; allowed_commands never shrinks
across run_command; and a command string is allowed exactly when every
extracted name is in the set. -/
theorem run_command_allow_list (s : SessionS) (command : String)
    (lines : List String) :
    (is_command_allowed command s.allowedCommands = false →
      (confirm s "Run Command" lines).result = some true →
      (run_command s command lines).session.allowedCommands =
        updateSet s.allowedCommands (extract_commands command) ∧
      is_command_allowed command
        (run_command s command lines).session.allowedCommands = true ∧
      (run_command s command lines).outcome = RCOutcome.executed ∧
      (run_command s command lines).confirmInvoked = true) ∧
    (is_command_allowed command s.allowedCommands = true →
      run_command s command lines = ⟨s, false, RCOutcome.executed⟩) ∧
    (∀ x, x ∈ s.allowedCommands →
      x ∈ (run_command s command lines).session.allowedCommands) ∧
    (∀ cmd2 al, is_command_allowed cmd2 al = true ↔
      ∀ c ∈ extract_commands cmd2, c ∈ al) := by
  have hall : (confirm s "Run Command" lines).session.allowedCommands =
      s.allowedCommands := (confirm_preserves s "Run Command" lines).2.2.2.2
  refine ⟨fun hna hc => ?_, fun ha => ?_, fun x hx => ?_, is_command_allowed_iff⟩
  · have hrun : run_command s command lines =
        ⟨{ (confirm s "Run Command" lines).session with
            allowedCommands := updateSet
              (confirm s "Run Command" lines).session.allowedCommands
              (extract_commands command) },
          true, RCOutcome.executed⟩ := by
      simp [run_command, hna, hc]
    rw [hrun]
    refine ⟨by simp [hall], ?_, rfl, rfl⟩
    refine (is_command_allowed_iff command _).mpr ?_
    intro c hcm
    exact mem_updateSet_of_mem_list _ _ _ hcm
  · simp [run_command, ha]
  · by_cases hna : is_command_allowed command s.allowedCommands = true
    · simpa [run_command, hna] using hx
    · have hna2 : is_command_allowed command s.allowedCommands = false := by
        simpa using hna
      cases hres : (confirm s "Run Command" lines).result with
      | none =>
        simp only [run_command, hna2, Bool.not_false, if_pos, hres]
        rw [hall]
        exact hx
      | some b =>
        cases b with
        | false =>
          simp only [run_command, hna2, Bool.not_false, if_pos, hres]
          rw [hall]
          exact hx
        | true =>
          simp only [run_command, hna2, Bool.not_false, if_pos, hres]
          exact mem_updateSet_of_mem_base _ _ _ (by rw [hall]; exact hx)

/-- Witness for C10: approving ls -la once with y records ls, after which the
same command is allowed. -/
theorem run_command_allow_list_witness :
    (run_command sessionDefault "ls -la" ["y"]).session.allowedCommands =
      updateSet sessionDefault.allowedCommands (extract_commands "ls -la") ∧
    is_command_allowed "ls -la"
      (run_command sessionDefault "ls -la" ["y"]).session.allowedCommands = true ∧
    (run_command sessionDefault "ls -la" ["y"]).outcome = RCOutcome.executed ∧
    (run_command sessionDefault "ls -la" ["y"]).confirmInvoked = true :=
  (run_command_allow_list sessionDefault "ls -la" ["y"]).1 (by decide) (by decide)

end Terminus
